import Mathlib

/-!
Verification development for the GeoIP2-node DNS & Threat Intelligence
Scanner.  The definitions below are a shallow embedding of the scanner's
JavaScript source: the Maltiverse quota guard and lookup
(`getMaltiverseInfo`, `resetMaltiverseQuota`), the env-configured API
variant (`queryMaltiverse`), the address aggregation
(`Array.from(new Set([...]))`), the batch search URL builder, the
change-triggered scheduler branches of the several `geoip.js` variants,
and the OpenNIC dynamic discovery filter.  External collaborators
(axios responses, `net.isIP`) are modelled as explicit parameters or
outcome datatypes.
-/

set_option maxRecDepth 4000

/-! ## String helpers (JS `toLowerCase().includes(...)`, split on dots) -/

/-- Character-list version of JS `String.prototype.startsWith` used by the
substring search below. -/
def leadsWith : List Char → List Char → Bool
  | [], _ => true
  | _ :: _, [] => false
  | a :: as, b :: bs => a == b && leadsWith as bs

/-- Character-list version of JS `String.prototype.includes`. -/
def containsSub (pat : List Char) : List Char → Bool
  | [] => pat.isEmpty
  | b :: rest => leadsWith pat (b :: rest) || containsSub pat rest

/-- JS `s.toLowerCase()` restricted to the ASCII data we model. -/
def lowerStr (s : String) : String :=
  String.mk (s.toList.map Char.toLower)

/-- JS `e.response.data.toLowerCase().includes('quota')` (the body is the
string payload of a rejected HTTP response). -/
def containsQuota (b : String) : Bool :=
  containsSub "quota".toList (lowerStr b).toList

/-! ## Maltiverse quota guard and lookup (quota variant of `geoip.js`)

Source: `MALTIVERSE_MAX_REQUESTS`, `maltiverseRequestCount`,
`maltiverseQuotaExceeded`, `resetMaltiverseQuota`, `getMaltiverseInfo`. -/

def MALTIVERSE_MAX_REQUESTS : Nat := 20

structure MaltiverseState where
  maltiverseRequestCount : Nat
  maltiverseQuotaExceeded : Bool
deriving DecidableEq

/-- Process start: `let maltiverseRequestCount = 0; let maltiverseQuotaExceeded = false;`. -/
def freshQuotaState : MaltiverseState :=
  { maltiverseRequestCount := 0, maltiverseQuotaExceeded := false }

/-- `resetMaltiverseQuota()`: zeroes the counter and clears the exceeded
flag (the re-armed `setTimeout` is external to the state we model). -/
def resetMaltiverseQuota (_s : MaltiverseState) : MaltiverseState :=
  { maltiverseRequestCount := 0, maltiverseQuotaExceeded := false }

/-- Outcome of one `axios.get` to the reputation service:
a resolved 2xx response (with status, data-truthiness, and the data's
`reputation`/`tags` fields), a rejected HTTP response (status, string body
if the body is a string, error message), or a transport failure. -/
inductive RemoteResult where
  | response (status : Nat) (hasData : Bool) (reputation : String) (tags : Option (List String))
  | httpError (status : Nat) (body : Option String) (message : String)
  | transportError (message : String)
deriving DecidableEq

/-- The `{ reputation, tags }` record `getMaltiverseInfo` returns. -/
structure MaltiverseReply where
  reputation : String
  tags : List String
deriving DecidableEq

/-- One call to `getMaltiverseInfo`: the returned reply, the quota state
afterwards, and whether a remote request was actually issued (the body of
the `try` was reached). -/
structure CallResult where
  reply : MaltiverseReply
  state : MaltiverseState
  issued : Bool
deriving DecidableEq

/-- The remote-side quota-rejection test in the `catch` branch:
`(e.response && e.response.status === 403) || (e.response && e.response.data
&& typeof e.response.data === 'string' && e.response.data.toLowerCase().includes('quota'))`. -/
def quotaBodyFlag : Option String → Bool
  | some b => containsQuota b
  | none => false

def isQuotaRejection : RemoteResult → Bool
  | .httpError status body _ => status == 403 || quotaBodyFlag body
  | _ => false

def isSuccessResult : RemoteResult → Bool
  | .response _ _ _ _ => true
  | _ => false

def errMessage : RemoteResult → String
  | .response _ _ _ _ => ""
  | .httpError _ _ m => m
  | .transportError m => m

def skippedLimitReply : MaltiverseReply :=
  { reputation := "Skipped (API quota limit reached)", tags := [] }

def skippedExceededReply : MaltiverseReply :=
  { reputation := "Skipped (API quota exceeded)", tags := [] }

/-- `getMaltiverseInfo(ip)` of the quota variant, as a function of the
quota state and the remote call's outcome. -/
def getMaltiverseInfo (s : MaltiverseState) (r : RemoteResult) : CallResult :=
  if s.maltiverseQuotaExceeded = true ∨ MALTIVERSE_MAX_REQUESTS ≤ s.maltiverseRequestCount then
    { reply := skippedLimitReply
      state := { s with maltiverseQuotaExceeded := true }
      issued := false }
  else
    match r with
    | .response status hasData rep tags =>
        let s2 := { s with maltiverseRequestCount := s.maltiverseRequestCount + 1 }
        if status == 200 && hasData then
          { reply := { reputation := rep, tags := tags.getD [] }, state := s2, issued := true }
        else
          { reply := { reputation := "Unknown", tags := [] }, state := s2, issued := true }
    | .httpError status body msg =>
        if status == 403 || quotaBodyFlag body then
          { reply := skippedExceededReply
            state := { s with maltiverseQuotaExceeded := true }
            issued := true }
        else if status == 404 then
          { reply := { reputation := "Unknown (not in Maltiverse)", tags := [] }
            state := s, issued := true }
        else
          { reply := { reputation := "Error", tags := [msg] }, state := s, issued := true }
    | .transportError msg =>
        { reply := { reputation := "Error", tags := [msg] }, state := s, issued := true }

/-- The per-address loop of `runGeoIPScan` (quota variant): each address's
`lookupIP` awaits `getMaltiverseInfo`, threading the quota state. -/
def runReplies : MaltiverseState → List RemoteResult → List CallResult
  | _, [] => []
  | s, r :: rs => getMaltiverseInfo s r :: runReplies (getMaltiverseInfo s r).state rs

/-- Final quota state after a sequence of `getMaltiverseInfo` calls. -/
def runState : MaltiverseState → List RemoteResult → MaltiverseState
  | s, [] => s
  | s, r :: rs => runState (getMaltiverseInfo s r).state rs

/-- `queryMaltiverse(ip)` of the env-configured variant: feature gate,
budget check against `MALTIVERSE_API_QUOTA`, `maltiverseApiCount++` only
after a resolved request; every `catch` path returns `null` without
touching the counter.  Result: (returned data, new counter, issued?). -/
def queryMaltiverse (useApi hasKey : Bool) (quota count : Nat) (r : RemoteResult) :
    Option (String × Option (List String)) × Nat × Bool :=
  if !(useApi && hasKey) then (none, count, false)
  else if quota ≤ count then (none, count, false)
  else
    match r with
    | .response _ _ rep tags => (some (rep, tags), count + 1, true)
    | .httpError _ _ _ => (none, count, true)
    | .transportError _ => (none, count, true)

/-! ## Address aggregation: `Array.from(new Set([...]))` -/

/-- `Array.from(new Set(l))` keeps the first occurrence of each element,
in insertion order; `seen` is the set built so far. -/
def jsSetDedupAux {α : Type} [DecidableEq α] (seen : List α) : List α → List α
  | [] => []
  | a :: rest =>
      if a ∈ seen then jsSetDedupAux seen rest
      else a :: jsSetDedupAux (a :: seen) rest

def jsSetDedup {α : Type} [DecidableEq α] (l : List α) : List α :=
  jsSetDedupAux [] l

/-- `const allIPs = Array.from(new Set([myip, ...publicDNS, ...providerDNS,
...openNICIPs]));` (env variant `main`). -/
def aggregateAllIPs (myip : String) (publicDNS providerDNS openNICIPs : List String) :
    List String :=
  jsSetDedup (myip :: (publicDNS ++ providerDNS ++ openNICIPs))

/-- Modelled from the spec: "Output preserves first-seen order across
sources ...; duplicates collapse to their first occurrence."  Keep the
head, drop its later duplicates, recurse. -/
def specFirstSeen {α : Type} [DecidableEq α] : List α → List α
  | [] => []
  | a :: rest => a :: specFirstSeen (rest.filter (fun b => !(b == a)))
termination_by l => l.length
decreasing_by
  simp only [List.length_cons]
  exact Nat.lt_succ_of_le (List.length_filter_le _ _)

/-! ## Batch reference builder: `getMaltiverseSearchURL` -/

def hexDigitChar (n : Nat) : Char :=
  if n < 10 then Char.ofNat (48 + n) else Char.ofNat (55 + n)

def percentByte (b : Nat) : List Char :=
  ['%', hexDigitChar (b / 16), hexDigitChar (b % 16)]

def utf8Bytes (n : Nat) : List Nat :=
  if n < 128 then [n]
  else if n < 2048 then [192 + n / 64, 128 + n % 64]
  else if n < 65536 then [224 + n / 4096, 128 + (n / 64) % 64, 128 + n % 64]
  else [240 + n / 262144, 128 + (n / 4096) % 64, 128 + (n / 64) % 64, 128 + n % 64]

def uriUnreserved (c : Char) : Bool :=
  c.isAlpha || c.isDigit || c == '-' || c == '_' || c == '.' || c == '!' ||
  c == '~' || c == '*' || c == Char.ofNat 39 || c == '(' || c == ')'

/-- JS `encodeURIComponent`. -/
def encodeURIComponent (s : String) : String :=
  String.mk (s.toList.foldr
    (fun c acc =>
      (if uriUnreserved c then [c]
       else (utf8Bytes c.toNat).foldr (fun b a => percentByte b ++ a) []) ++ acc)
    [])

/-- `getMaltiverseSearchURL(ips)`. -/
def getMaltiverseSearchURL (ips : List String) : String :=
  "https://maltiverse.com/intelligence/search;query=" ++
    encodeURIComponent (String.intercalate " " ips) ++
    ";page=1;sort=creation_time_desc"

/-! ## Scheduler trigger models -/

/-- Observable outcome of one scheduler trigger: the recorded last-seen
public address afterwards, the addresses fed to `lookupIP` in order
(`none` models the JS `null` that the unguarded interval handler can pass),
and the batch search URLs printed. -/
structure TriggerOutcome where
  newLastIP : Option String
  enriched : List (Option String)
  artifacts : List String
deriving DecidableEq

/-- JS `Array.prototype.join` renders `null` as the empty string. -/
def optJoinIPs (l : List (Option String)) : List String :=
  l.map (fun o => o.getD "")

/-- Env-variant `main` after the startup null guard: detects the change,
scans `[myip, ...publicDNS]`, then `providerDNS`, then `openNICIPs`
(without deduplication), and prints the URL of the deduplicated `allIPs`;
on an unchanged address it skips the scan but still prints the URL. -/
def mainScanTrigger (lastIP : Option String) (ip : String)
    (pub prov nic : List String) : TriggerOutcome :=
  let allIPs := aggregateAllIPs ip pub prov nic
  if some ip ≠ lastIP then
    { newLastIP := some ip
      enriched := (ip :: (pub ++ prov ++ nic)).map some
      artifacts := [getMaltiverseSearchURL allIPs] }
  else
    { newLastIP := lastIP
      enriched := []
      artifacts := [getMaltiverseSearchURL allIPs] }

/-- Env-variant `main` startup trigger: `if (!myip) return;`. -/
def mainTrigger (lastIP myip : Option String) (pub prov nic : List String) :
    TriggerOutcome :=
  match myip with
  | none => { newLastIP := lastIP, enriched := [], artifacts := [] }
  | some ip => mainScanTrigger lastIP ip pub prov nic

/-- Env-variant `setInterval` handler: identical body but no null guard on
the resolved public address. -/
def intervalTrigger (lastIP myip : Option String) (pub prov nic : List String) :
    TriggerOutcome :=
  let allIPs := jsSetDedup (myip :: (pub ++ prov ++ nic).map some)
  if myip ≠ lastIP then
    { newLastIP := myip
      enriched := myip :: (pub ++ prov ++ nic).map some
      artifacts := [getMaltiverseSearchURL (optJoinIPs allIPs)] }
  else
    { newLastIP := lastIP
      enriched := []
      artifacts := [getMaltiverseSearchURL (optJoinIPs allIPs)] }

/-- `runGeoIPScan` of the variant that detects the change inside the scan
function: null guard, dedup of `[myip, ...dnsList]`, URL only when
`ips.length > 1`, and a bare log (no artifact) when the address is
unchanged. -/
def runGeoIPScanB (lastIP myip : Option String) (dnsList : List String) :
    TriggerOutcome :=
  match myip with
  | none => { newLastIP := lastIP, enriched := [], artifacts := [] }
  | some ip =>
    if some ip ≠ lastIP then
      let ips := jsSetDedup (ip :: dnsList)
      { newLastIP := some ip
        enriched := ips.map some
        artifacts := if 1 < ips.length then [getMaltiverseSearchURL ips] else [] }
    else
      { newLastIP := lastIP, enriched := [], artifacts := [] }

/-! ## OpenNIC dynamic discovery filter (`geoip_opennic_tier.js`) -/

structure OpenNICServer where
  ip : String
  hostname : String
deriving DecidableEq

/-- The filter loop of `fetchOpenNICTierServers`: keep an entry when the
validator accepts its address and it was not seen before.  The `net.isIP`
collaborator is a parameter. -/
def fetchOpenNICAux (isIP : String → Bool) (seen : List String) :
    List (String × String) → List OpenNICServer
  | [] => []
  | (ip, short) :: rest =>
      if isIP ip = true ∧ ip ∉ seen then
        { ip := ip, hostname := short } :: fetchOpenNICAux isIP (ip :: seen) rest
      else
        fetchOpenNICAux isIP seen rest

/-- `fetchOpenNICTierServers` over already-parsed entries `(ip, short)`. -/
def fetchOpenNICTierServers (isIP : String → Bool) (data : List (String × String)) :
    List OpenNICServer :=
  fetchOpenNICAux isIP [] data

/-- Splits a character list at dots, the shape `'1.2.3.4'.split('.')`
produces. -/
def splitDots : List Char → List (List Char)
  | [] => [[]]
  | c :: rest =>
      let r := splitDots rest
      if c == '.' then [] :: r
      else
        match r with
        | [] => [[c]]
        | h :: t => (c :: h) :: t

def digitsVal (p : List Char) : Nat :=
  p.foldl (fun n c => n * 10 + (c.toNat - 48)) 0

def ipv4Octet (p : List Char) : Bool :=
  !p.isEmpty && decide (p.length ≤ 3) && p.all Char.isDigit &&
  (decide (p.length = 1) || !(p.headD '0' == '0')) &&
  decide (digitsVal p ≤ 255)

/-- Modelled from the spec: the external `net.isIP` collaborator's
IPv4 case — "a syntactically valid IPv4 ... literal string" (strict
dotted-quad, each octet 0..255 without leading zeros).  Used to
instantiate the validator parameter in witnesses. -/
def isIPv4 (s : String) : Bool :=
  let parts := splitDots s.toList
  decide (parts.length = 4) && parts.all ipv4Octet

/-! ## Sample remote outcomes used in witnesses and counterexamples -/

def sampleOk : RemoteResult := .response 200 true "benign" none

def rejectSample : RemoteResult :=
  .httpError 403 none "Request failed with status code 403"

def serverErrSample : RemoteResult :=
  .httpError 500 none "Request failed with status code 500"

def notFoundSample : RemoteResult :=
  .httpError 404 none "Request failed with status code 404"

def exhaustedState : MaltiverseState :=
  { maltiverseRequestCount := 0, maltiverseQuotaExceeded := true }

/-- A window with one failed request followed by `ceiling` completed ones:
the guard lets all of them through. -/
def overBudgetRun : List RemoteResult :=
  notFoundSample :: List.replicate MALTIVERSE_MAX_REQUESTS sampleOk

/-- A failure that is neither a 404 nor a remote quota rejection. -/
def isOtherFailure : RemoteResult → Bool
  | .response _ _ _ _ => false
  | .httpError status body _ => !(status == 403 || quotaBodyFlag body) && !(status == 404)
  | .transportError _ => true

/-! ## Support lemmas: quota guard -/

lemma getMaltiverseInfo_denied (s : MaltiverseState) (r : RemoteResult)
    (h : s.maltiverseQuotaExceeded = true ∨ MALTIVERSE_MAX_REQUESTS ≤ s.maltiverseRequestCount) :
    getMaltiverseInfo s r =
      { reply := skippedLimitReply
        state := { s with maltiverseQuotaExceeded := true }
        issued := false } := by
  unfold getMaltiverseInfo
  rw [if_pos h]

lemma getMaltiverseInfo_issued_of_open (s : MaltiverseState) (r : RemoteResult)
    (h : ¬(s.maltiverseQuotaExceeded = true ∨ MALTIVERSE_MAX_REQUESTS ≤ s.maltiverseRequestCount)) :
    (getMaltiverseInfo s r).issued = true := by
  unfold getMaltiverseInfo
  rw [if_neg h]
  cases r with
  | response status hasData rep tags => by_cases hc : (status == 200 && hasData) = true <;> simp [hc]
  | httpError status body msg =>
      by_cases hq : (status == 403 || quotaBodyFlag body) = true
      · simp [hq]
      · by_cases h4 : (status == 404) = true <;> simp [hq, h4]
  | transportError msg => simp

lemma getMaltiverseInfo_response_state (s : MaltiverseState)
    (status : Nat) (hasData : Bool) (rep : String) (tags : Option (List String))
    (h : ¬(s.maltiverseQuotaExceeded = true ∨ MALTIVERSE_MAX_REQUESTS ≤ s.maltiverseRequestCount)) :
    (getMaltiverseInfo s (.response status hasData rep tags)).state =
      { s with maltiverseRequestCount := s.maltiverseRequestCount + 1 } := by
  unfold getMaltiverseInfo
  rw [if_neg h]
  by_cases hc : (status == 200 && hasData) = true <;> simp [hc]

lemma runReplies_denied (rs : List RemoteResult) :
    ∀ (s : MaltiverseState),
      (s.maltiverseQuotaExceeded = true ∨ MALTIVERSE_MAX_REQUESTS ≤ s.maltiverseRequestCount) →
      ∀ c ∈ runReplies s rs, c.issued = false ∧ c.reply = skippedLimitReply := by
  induction rs with
  | nil => intro s _ c hc; simp [runReplies] at hc
  | cons r rs ih =>
      intro s h c hc
      rw [runReplies] at hc
      rcases List.mem_cons.mp hc with hc | hc
      · rw [getMaltiverseInfo_denied s r h] at hc
        subst hc
        exact ⟨rfl, rfl⟩
      · have hstate : (getMaltiverseInfo s r).state.maltiverseQuotaExceeded = true := by
          rw [getMaltiverseInfo_denied s r h]
        exact ih (getMaltiverseInfo s r).state (Or.inl hstate) c hc

lemma run_success_counts (rs : List RemoteResult) :
    ∀ (s : MaltiverseState),
      (∀ r ∈ rs, isSuccessResult r = true) →
      s.maltiverseQuotaExceeded = false →
      s.maltiverseRequestCount + rs.length ≤ MALTIVERSE_MAX_REQUESTS →
      runState s rs =
        { maltiverseRequestCount := s.maltiverseRequestCount + rs.length
          maltiverseQuotaExceeded := false } := by
  induction rs with
  | nil =>
      intro s _ hex _
      cases s with
      | mk c e => simp at hex; simp [runState, hex]
  | cons r rs ih =>
      intro s hok hex hle
      have hr : isSuccessResult r = true := hok r (List.mem_cons_self r rs)
      simp only [List.length_cons] at hle
      have hguard : ¬(s.maltiverseQuotaExceeded = true ∨
          MALTIVERSE_MAX_REQUESTS ≤ s.maltiverseRequestCount) := by
        rw [hex]
        simp
        omega
      cases r with
      | response status hasData rep tags =>
          rw [runState, getMaltiverseInfo_response_state s status hasData rep tags hguard]
          rw [ih { maltiverseRequestCount := s.maltiverseRequestCount + 1,
                   maltiverseQuotaExceeded := s.maltiverseQuotaExceeded }
               (fun x hmem => hok x (List.mem_cons_of_mem _ hmem))
               (by simpa using hex)
               (by dsimp only; omega)]
          dsimp only
          simp only [List.length_cons, MaltiverseState.mk.injEq, and_true, eq_self_iff_true]
          omega
      | httpError status body msg => simp [isSuccessResult] at hr
      | transportError msg => simp [isSuccessResult] at hr

lemma reset_grants (s : MaltiverseState) (r : RemoteResult) :
    (getMaltiverseInfo (resetMaltiverseQuota s) r).issued = true := by
  apply getMaltiverseInfo_issued_of_open
  simp [resetMaltiverseQuota, MALTIVERSE_MAX_REQUESTS]

lemma runReplies_cons (s : MaltiverseState) (r : RemoteResult) (rs : List RemoteResult) :
    runReplies s (r :: rs) =
      getMaltiverseInfo s r :: runReplies (getMaltiverseInfo s r).state rs := rfl

lemma runReplies_length (rs : List RemoteResult) :
    ∀ s : MaltiverseState, (runReplies s rs).length = rs.length := by
  induction rs with
  | nil => intro s; rfl
  | cons r rs ih => intro s; rw [runReplies_cons]; simp [ih]

/-! ## Support lemmas: aggregation / dedup -/

lemma specFirstSeen_cons {α : Type} [DecidableEq α] (a : α) (rest : List α) :
    specFirstSeen (a :: rest) = a :: specFirstSeen (rest.filter (fun b => !(b == a))) := by
  rw [specFirstSeen]

lemma specFirstSeen_subset_n {α : Type} [DecidableEq α] :
    ∀ (n : Nat) (l : List α), l.length ≤ n → ∀ b ∈ specFirstSeen l, b ∈ l := by
  intro n
  induction n with
  | zero =>
      intro l hl b hb
      have hnil : l = [] := List.eq_nil_of_length_eq_zero (Nat.le_zero.mp hl)
      subst hnil
      simp [specFirstSeen] at hb
  | succ n ih =>
      intro l hl b hb
      cases l with
      | nil => simp [specFirstSeen] at hb
      | cons a rest =>
          rw [specFirstSeen_cons] at hb
          rcases List.mem_cons.mp hb with h | h
          · simp [h]
          · have hlen : (rest.filter (fun b => !(b == a))).length ≤ n :=
              le_trans (List.length_filter_le _ _) (Nat.le_of_succ_le_succ hl)
            exact List.mem_cons_of_mem a (List.mem_of_mem_filter (ih _ hlen b h))

lemma specFirstSeen_nodup_n {α : Type} [DecidableEq α] :
    ∀ (n : Nat) (l : List α), l.length ≤ n → (specFirstSeen l).Nodup := by
  intro n
  induction n with
  | zero =>
      intro l hl
      have hnil : l = [] := List.eq_nil_of_length_eq_zero (Nat.le_zero.mp hl)
      subst hnil
      simp [specFirstSeen]
  | succ n ih =>
      intro l hl
      cases l with
      | nil => simp [specFirstSeen]
      | cons a rest =>
          rw [specFirstSeen_cons]
          have hlen : (rest.filter (fun b => !(b == a))).length ≤ n :=
            le_trans (List.length_filter_le _ _) (Nat.le_of_succ_le_succ hl)
          refine List.nodup_cons.mpr ⟨?_, ih _ hlen⟩
          intro hmem
          have hin := specFirstSeen_subset_n (rest.filter (fun b => !(b == a))).length _
            (le_refl _) a hmem
          have := (List.mem_filter.mp hin).2
          simp at this

lemma specFirstSeen_nodup {α : Type} [DecidableEq α] (l : List α) :
    (specFirstSeen l).Nodup :=
  specFirstSeen_nodup_n l.length l (le_refl _)

lemma jsSetDedupAux_cons {α : Type} [DecidableEq α] (seen : List α) (a : α) (rest : List α) :
    jsSetDedupAux seen (a :: rest) =
      if a ∈ seen then jsSetDedupAux seen rest
      else a :: jsSetDedupAux (a :: seen) rest := rfl

lemma jsSetDedupAux_eq_spec {α : Type} [DecidableEq α] (l : List α) :
    ∀ seen : List α,
      jsSetDedupAux seen l = specFirstSeen (l.filter (fun b => decide (b ∉ seen))) := by
  induction l with
  | nil => intro seen; simp [jsSetDedupAux, specFirstSeen]
  | cons a rest ih =>
      intro seen
      by_cases ha : a ∈ seen
      · rw [jsSetDedupAux_cons, if_pos ha,
          @List.filter_cons_of_neg _ (fun b => decide (b ∉ seen)) a rest (by simp [ha])]
        exact ih seen
      · rw [jsSetDedupAux_cons, if_neg ha,
          @List.filter_cons_of_pos _ (fun b => decide (b ∉ seen)) a rest (by simp [ha]),
          specFirstSeen_cons, ih (a :: seen)]
        congr 1
        rw [List.filter_filter]
        congr 1
        apply List.filter_congr
        intro b _
        by_cases hba : b = a <;> by_cases hbs : b ∈ seen <;> simp [hba, hbs]

lemma jsSetDedup_eq_spec {α : Type} [DecidableEq α] (l : List α) :
    jsSetDedup l = specFirstSeen l := by
  rw [jsSetDedup, jsSetDedupAux_eq_spec l []]
  congr 1
  apply List.filter_eq_self.mpr
  intro b _
  simp

lemma jsSetDedup_nodup {α : Type} [DecidableEq α] (l : List α) :
    (jsSetDedup l).Nodup := by
  rw [jsSetDedup_eq_spec]
  exact specFirstSeen_nodup l

lemma specFirstSeen_of_nodup {α : Type} [DecidableEq α] :
    ∀ (n : Nat) (l : List α), l.length ≤ n → l.Nodup → specFirstSeen l = l := by
  intro n
  induction n with
  | zero =>
      intro l hl _
      have hnil : l = [] := List.eq_nil_of_length_eq_zero (Nat.le_zero.mp hl)
      subst hnil
      simp [specFirstSeen]
  | succ n ih =>
      intro l hl hnd
      cases l with
      | nil => simp [specFirstSeen]
      | cons a rest =>
          rw [specFirstSeen_cons]
          have hna : a ∉ rest := (List.nodup_cons.mp hnd).1
          have hfe : rest.filter (fun b => !(b == a)) = rest := by
            apply List.filter_eq_self.mpr
            intro b hb
            have : b ≠ a := fun hba => hna (hba ▸ hb)
            simp [this]
          rw [hfe]
          rw [ih rest (Nat.le_of_succ_le_succ (by simpa using hl)) (List.nodup_cons.mp hnd).2]

lemma jsSetDedup_of_nodup {α : Type} [DecidableEq α] (l : List α) (h : l.Nodup) :
    jsSetDedup l = l := by
  rw [jsSetDedup_eq_spec]
  exact specFirstSeen_of_nodup l.length l (le_refl _) h

/-! ## Support lemmas: OpenNIC discovery filter -/

lemma fetchOpenNICAux_valid (isIP : String → Bool) (l : List (String × String)) :
    ∀ seen : List String, ∀ s ∈ fetchOpenNICAux isIP seen l, isIP s.ip = true := by
  induction l with
  | nil => intro seen s hs; simp [fetchOpenNICAux] at hs
  | cons e rest ih =>
      intro seen s hs
      obtain ⟨ip, short⟩ := e
      rw [fetchOpenNICAux] at hs
      by_cases hc : isIP ip = true ∧ ip ∉ seen
      · rw [if_pos hc] at hs
        rcases List.mem_cons.mp hs with h | h
        · subst h; exact hc.1
        · exact ih (ip :: seen) s h
      · rw [if_neg hc] at hs
        exact ih seen s hs

lemma fetchOpenNICAux_kept (isIP : String → Bool) (l : List (String × String)) :
    ∀ seen : List String, ∀ e ∈ l, isIP e.1 = true →
      e.1 ∈ seen ∨ ∃ s ∈ fetchOpenNICAux isIP seen l, s.ip = e.1 := by
  induction l with
  | nil => intro seen e he _; simp at he
  | cons hd rest ih =>
      intro seen e he hv
      obtain ⟨ip, short⟩ := hd
      rcases List.mem_cons.mp he with h | h
      · subst h
        by_cases hmem : ip ∈ seen
        · exact Or.inl hmem
        · right
          refine ⟨{ ip := ip, hostname := short }, ?_, rfl⟩
          rw [fetchOpenNICAux, if_pos ⟨hv, hmem⟩]
          exact List.mem_cons_self _ _
      · by_cases hc : isIP ip = true ∧ ip ∉ seen
        · rcases ih (ip :: seen) e h hv with hseen | ⟨s, hs, hip⟩
          · rcases List.mem_cons.mp hseen with h1 | h1
            · right
              refine ⟨{ ip := ip, hostname := short }, ?_, h1.symm⟩
              rw [fetchOpenNICAux, if_pos hc]
              exact List.mem_cons_self _ _
            · exact Or.inl h1
          · right
            refine ⟨s, ?_, hip⟩
            rw [fetchOpenNICAux, if_pos hc]
            exact List.mem_cons_of_mem _ hs
        · rcases ih seen e h hv with hseen | ⟨s, hs, hip⟩
          · exact Or.inl hseen
          · right
            refine ⟨s, ?_, hip⟩
            rw [fetchOpenNICAux, if_neg hc]
            exact hs

/-! ## Claim theorems -/

/-- C1 counterexample: a window of exactly `ceiling` granted acquisitions
one of which fails with a 404 leaves the counter at 19, and the next
budget check at the head of `getMaltiverseInfo` still grants — refuting
the claim that after exactly `ceiling` granted acquisitions every further
`tryAcquire` returns Denied. -/
theorem C1_counterexample_failed_grant :
    ((runReplies freshQuotaState
        (notFoundSample :: List.replicate 19 sampleOk)).all (fun c => c.issued)) = true ∧
    (runReplies freshQuotaState
        (notFoundSample :: List.replicate 19 sampleOk)).length =
      MALTIVERSE_MAX_REQUESTS ∧
    (runState freshQuotaState
        (notFoundSample :: List.replicate 19 sampleOk)).maltiverseRequestCount = 19 ∧
    (getMaltiverseInfo
        (runState freshQuotaState (notFoundSample :: List.replicate 19 sampleOk))
        sampleOk).issued = true := by
  refine ⟨?_, ?_, ?_, ?_⟩ <;> decide

/-- C1 amended: within one window, after exactly `ceiling` acquisitions
have been granted and each granted request has completed (failed requests
consume no budget), every further budget check at the head of
`getMaltiverseInfo` denies with the Skipped reply, and after
`resetMaltiverseQuota` the next check grants again. -/
theorem C1_quota_ceiling_then_reset (rs : List RemoteResult)
    (hlen : rs.length = MALTIVERSE_MAX_REQUESTS)
    (hok : ∀ r ∈ rs, isSuccessResult r = true) :
    (∀ (more : List RemoteResult) (c : CallResult),
        c ∈ runReplies (runState freshQuotaState rs) more →
        c.issued = false ∧ c.reply = skippedLimitReply) ∧
    (∀ (s : MaltiverseState) (r : RemoteResult),
        (getMaltiverseInfo (resetMaltiverseQuota s) r).issued = true) := by
  have hrun := run_success_counts rs freshQuotaState hok rfl
    (by simp [freshQuotaState, hlen])
  constructor
  · intro more c hc
    refine runReplies_denied more (runState freshQuotaState rs) ?_ c hc
    rw [hrun]
    right
    simp [freshQuotaState, hlen]
  · intro s r
    exact reset_grants s r

theorem C1_quota_ceiling_then_reset_witness :
    ((getMaltiverseInfo
        (runState freshQuotaState (List.replicate MALTIVERSE_MAX_REQUESTS sampleOk))
        sampleOk).issued = false ∧
     (getMaltiverseInfo
        (runState freshQuotaState (List.replicate MALTIVERSE_MAX_REQUESTS sampleOk))
        sampleOk).reply = skippedLimitReply) ∧
    (getMaltiverseInfo (resetMaltiverseQuota freshQuotaState) sampleOk).issued = true := by
  have h := C1_quota_ceiling_then_reset (List.replicate MALTIVERSE_MAX_REQUESTS sampleOk)
    (by simp)
    (by intro r hr; rw [List.eq_of_mem_replicate hr]; rfl)
  exact ⟨h.1 [sampleOk] _ (by rw [runReplies]; exact List.mem_cons_self _ _),
         h.2 freshQuotaState sampleOk⟩

/-- C2: a remote quota rejection (HTTP 403 or a body containing "quota")
during a pass yields the Skipped-Quota reply, sets the exceeded flag, and
every subsequent call in the pass is denied without issuing a remote
request, until the window reset makes the guard grant again. -/
theorem C2_remote_rejection_poisons_pass (s : MaltiverseState) (r : RemoteResult)
    (hopen : ¬(s.maltiverseQuotaExceeded = true ∨
        MALTIVERSE_MAX_REQUESTS ≤ s.maltiverseRequestCount))
    (hrej : isQuotaRejection r = true) :
    (getMaltiverseInfo s r).reply = skippedExceededReply ∧
    (getMaltiverseInfo s r).state.maltiverseQuotaExceeded = true ∧
    (∀ (rest : List RemoteResult) (c : CallResult),
        c ∈ runReplies (getMaltiverseInfo s r).state rest →
        c.issued = false ∧ c.reply = skippedLimitReply) ∧
    (∀ (s2 : MaltiverseState) (r2 : RemoteResult),
        (getMaltiverseInfo (resetMaltiverseQuota s2) r2).issued = true) := by
  cases r with
  | response status hasData rep tags => simp [isQuotaRejection] at hrej
  | transportError m => simp [isQuotaRejection] at hrej
  | httpError status body msg =>
      have hcall : getMaltiverseInfo s (.httpError status body msg) =
          { reply := skippedExceededReply
            state := { s with maltiverseQuotaExceeded := true }
            issued := true } := by
        unfold getMaltiverseInfo
        rw [if_neg hopen]
        simp only [isQuotaRejection] at hrej
        dsimp only
        rw [if_pos hrej]
      refine ⟨by rw [hcall], by rw [hcall], ?_, fun s2 r2 => reset_grants s2 r2⟩
      intro rest c hc
      exact runReplies_denied rest _ (Or.inl (by rw [hcall])) c hc

theorem C2_remote_rejection_poisons_pass_witness :
    (getMaltiverseInfo freshQuotaState rejectSample).reply = skippedExceededReply ∧
    (getMaltiverseInfo freshQuotaState rejectSample).state.maltiverseQuotaExceeded = true ∧
    ((getMaltiverseInfo (getMaltiverseInfo freshQuotaState rejectSample).state
        sampleOk).issued = false ∧
     (getMaltiverseInfo (getMaltiverseInfo freshQuotaState rejectSample).state
        sampleOk).reply = skippedLimitReply) ∧
    (getMaltiverseInfo (resetMaltiverseQuota exhaustedState) sampleOk).issued = true := by
  have h := C2_remote_rejection_poisons_pass freshQuotaState rejectSample
    (by decide) (by decide)
  exact ⟨h.1, h.2.1,
         h.2.2.1 [sampleOk] _ (by rw [runReplies]; exact List.mem_cons_self _ _),
         h.2.2.2 exhaustedState sampleOk⟩

/-- C3: for every self address and static, provider, and dynamic list, the
aggregated set `allIPs` has no duplicate address and lists addresses in
first-seen order under the precedence self → static → provider → dynamic,
each duplicate collapsed to its first occurrence. -/
theorem C3_aggregate_nodup_first_seen (myip : String) (pub prov nic : List String) :
    (aggregateAllIPs myip pub prov nic).Nodup ∧
    aggregateAllIPs myip pub prov nic = specFirstSeen (myip :: (pub ++ prov ++ nic)) :=
  ⟨jsSetDedup_nodup _, jsSetDedup_eq_spec _⟩

/-- C4 counterexample: in the variant whose change detection lives inside
`runGeoIPScan`, a second trigger with an unchanged public address performs
no lookups but also emits no batch reference artifact, contradicting the
claim that exactly one artifact is emitted. -/
theorem C4_counterexample_no_artifact :
    (runGeoIPScanB (some "1.2.3.4") (some "1.2.3.4") ["8.8.8.8"]).enriched = [] ∧
    (runGeoIPScanB (some "1.2.3.4") (some "1.2.3.4") ["8.8.8.8"]).artifacts.length = 0 := by
  decide

/-- C4 amended: on a second trigger with an unchanged public address, the
env-variant `main` performs no per-address lookups and emits exactly one
batch search URI, built from the current full aggregated address set; the
`runGeoIPScan` variant performs no lookups and emits no artifact at all. -/
theorem C4_unchanged_trigger (ip : String) (pub prov nic dns : List String) :
    (mainScanTrigger (some ip) ip pub prov nic).enriched = [] ∧
    (mainScanTrigger (some ip) ip pub prov nic).artifacts =
      [getMaltiverseSearchURL (aggregateAllIPs ip pub prov nic)] ∧
    (runGeoIPScanB (some ip) (some ip) dns).enriched = [] ∧
    (runGeoIPScanB (some ip) (some ip) dns).artifacts = [] := by
  refine ⟨?_, ?_, ?_, ?_⟩ <;> simp [mainScanTrigger, runGeoIPScanB]

/-- C5: at the failing input (interval trigger whose public-address
resolution fails while a previous address is recorded), the startup path
behaves as the claim states, but the interval handler records `null` as
the new last-seen address, runs enrichment, and still emits an artifact —
the code contradicts the claim on the interval path. -/
theorem C5_resolution_failure_interval :
    (mainTrigger (some "1.2.3.4") none ["8.8.8.8"] [] []).newLastIP = some "1.2.3.4" ∧
    (mainTrigger (some "1.2.3.4") none ["8.8.8.8"] [] []).enriched = [] ∧
    (mainTrigger (some "1.2.3.4") none ["8.8.8.8"] [] []).artifacts = [] ∧
    (intervalTrigger (some "1.2.3.4") none ["8.8.8.8"] [] []).newLastIP = none ∧
    (intervalTrigger (some "1.2.3.4") none ["8.8.8.8"] [] []).enriched.length = 2 ∧
    (intervalTrigger (some "1.2.3.4") none ["8.8.8.8"] [] []).artifacts.length = 1 := by
  refine ⟨rfl, rfl, rfl, ?_, ?_, ?_⟩ <;> decide

/-- C6 counterexample: with `8.8.8.8` both in the static list and in the
dynamic list, the changed-address pass of the env-variant `main` enriches
`8.8.8.8` twice, contradicting "no address is enriched more than once". -/
theorem C6_counterexample_duplicate_enrichment :
    ((mainScanTrigger (some "1.1.1.1") "1.2.3.4" ["8.8.8.8"] [] ["8.8.8.8"]).enriched.count
      (some "8.8.8.8")) = 2 := by
  decide

/-- C6 amended: on a changed address the pass records the new value and
sequentially enriches the concatenation self :: static ++ provider ++
dynamic in that exact order, without deduplication; whenever that
concatenation is duplicate-free this coincides with the aggregated
deduplicated set in set order, and then no address is enriched twice. -/
theorem C6_changed_ip_scan (lastIP : Option String) (ip : String)
    (pub prov nic : List String)
    (hch : some ip ≠ lastIP)
    (hnd : (ip :: (pub ++ prov ++ nic)).Nodup) :
    (mainScanTrigger lastIP ip pub prov nic).newLastIP = some ip ∧
    (mainScanTrigger lastIP ip pub prov nic).enriched =
      (ip :: (pub ++ prov ++ nic)).map some ∧
    (mainScanTrigger lastIP ip pub prov nic).enriched =
      (aggregateAllIPs ip pub prov nic).map some := by
  refine ⟨?_, ?_, ?_⟩
  · simp [mainScanTrigger, hch]
  · simp [mainScanTrigger, hch]
  · rw [aggregateAllIPs, jsSetDedup_of_nodup _ hnd]
    simp [mainScanTrigger, hch]

theorem C6_changed_ip_scan_witness :
    (mainScanTrigger none "1.2.3.4" ["8.8.8.8"] [] []).newLastIP = some "1.2.3.4" ∧
    (mainScanTrigger none "1.2.3.4" ["8.8.8.8"] [] []).enriched =
      [some "1.2.3.4", some "8.8.8.8"] ∧
    (mainScanTrigger none "1.2.3.4" ["8.8.8.8"] [] []).enriched =
      (aggregateAllIPs "1.2.3.4" ["8.8.8.8"] [] []).map some := by
  have h := C6_changed_ip_scan none "1.2.3.4" ["8.8.8.8"] [] [] (by decide) (by decide)
  exact ⟨h.1, h.2.1, h.2.2⟩

/-- C7 counterexample: from the Open state at the ceiling
(count = ceiling, exhausted flag clear), a denied budget check flips the
exhausted flag to true, so the denied acquisition does change the quota
state, contradicting the claim. -/
theorem C7_counterexample_denied_sets_flag :
    (getMaltiverseInfo { maltiverseRequestCount := MALTIVERSE_MAX_REQUESTS,
                         maltiverseQuotaExceeded := false } sampleOk).issued = false ∧
    (getMaltiverseInfo { maltiverseRequestCount := MALTIVERSE_MAX_REQUESTS,
                         maltiverseQuotaExceeded := false }
      sampleOk).state.maltiverseQuotaExceeded = true := by
  decide

/-- C7 amended: a denied `tryAcquire` leaves the counter unchanged and
returns the skipped reply, but it always sets the exhausted flag to true;
the quota state is entirely unchanged only when the guard was already
Exhausted. -/
theorem C7_denied_frame (s : MaltiverseState) (r : RemoteResult)
    (hd : (getMaltiverseInfo s r).issued = false) :
    (getMaltiverseInfo s r).state.maltiverseRequestCount = s.maltiverseRequestCount ∧
    (getMaltiverseInfo s r).state.maltiverseQuotaExceeded = true ∧
    (getMaltiverseInfo s r).reply = skippedLimitReply ∧
    (s.maltiverseQuotaExceeded = true → (getMaltiverseInfo s r).state = s) := by
  by_cases h : s.maltiverseQuotaExceeded = true ∨
      MALTIVERSE_MAX_REQUESTS ≤ s.maltiverseRequestCount
  · rw [getMaltiverseInfo_denied s r h]
    refine ⟨rfl, rfl, rfl, fun hex => ?_⟩
    cases s with
    | mk c e =>
        dsimp only at hex
        subst hex
        rfl
  · exfalso
    rw [getMaltiverseInfo_issued_of_open s r h] at hd
    exact absurd hd (by simp)

theorem C7_denied_frame_witness :
    (getMaltiverseInfo exhaustedState sampleOk).issued = false ∧
    (getMaltiverseInfo exhaustedState sampleOk).state = exhaustedState := by
  have h := C7_denied_frame exhaustedState sampleOk (by decide)
  exact ⟨by decide, h.2.2.2 rfl⟩

/-- C8: when the remote reputation call fails with a non-success outcome
that is neither a 404 nor a quota rejection, `getMaltiverseInfo` returns
the Error reply carrying the failure message, the quota state is entirely
unchanged, and the pass keeps processing the remaining addresses (a run
produces exactly one result per address, with the rest of the pass
behaving as if the failing call had never happened). -/
theorem C8_other_failure_continues (s : MaltiverseState) (r : RemoteResult)
    (hopen : ¬(s.maltiverseQuotaExceeded = true ∨
        MALTIVERSE_MAX_REQUESTS ≤ s.maltiverseRequestCount))
    (hf : isOtherFailure r = true) :
    (getMaltiverseInfo s r).reply = { reputation := "Error", tags := [errMessage r] } ∧
    (getMaltiverseInfo s r).state = s ∧
    (getMaltiverseInfo s r).issued = true ∧
    (∀ rest : List RemoteResult,
        runReplies s (r :: rest) = getMaltiverseInfo s r :: runReplies s rest) ∧
    (∀ (s2 : MaltiverseState) (rs : List RemoteResult),
        (runReplies s2 rs).length = rs.length) := by
  have hcall : getMaltiverseInfo s r =
      { reply := { reputation := "Error", tags := [errMessage r] }
        state := s, issued := true } := by
    cases r with
    | response status hasData rep tags => simp [isOtherFailure] at hf
    | transportError m =>
        unfold getMaltiverseInfo
        rw [if_neg hopen]
        rfl
    | httpError status body m =>
        simp only [isOtherFailure, Bool.and_eq_true, Bool.not_eq_true'] at hf
        unfold getMaltiverseInfo
        rw [if_neg hopen]
        dsimp only
        rw [if_neg (by simp [hf.1]), if_neg (by simp [hf.2])]
        rfl
  refine ⟨by rw [hcall], by rw [hcall], by rw [hcall], ?_, ?_⟩
  · intro rest
    rw [runReplies_cons, hcall]
  · intro s2 rs
    exact runReplies_length rs s2

theorem C8_other_failure_continues_witness :
    (getMaltiverseInfo freshQuotaState serverErrSample).reply =
      { reputation := "Error", tags := ["Request failed with status code 500"] } ∧
    (getMaltiverseInfo freshQuotaState serverErrSample).state = freshQuotaState ∧
    (runReplies freshQuotaState [serverErrSample, sampleOk]).length = 2 := by
  have h := C8_other_failure_continues freshQuotaState serverErrSample
    (by decide) (by decide)
  exact ⟨h.1, h.2.1, h.2.2.2.2 freshQuotaState [serverErrSample, sampleOk]⟩

/-- C9: dynamically discovered items whose address fails the syntax
validator are silently dropped before aggregation, validly formed items
are kept, and the discovery result `["not-an-ip", "9.9.9.9"]` contributes
only `9.9.9.9`. -/
theorem C9_dynamic_validation (isIP : String → Bool) (data : List (String × String))
    (h1 : isIP "not-an-ip" = false) (h2 : isIP "9.9.9.9" = true) :
    (∀ s ∈ fetchOpenNICTierServers isIP data, isIP s.ip = true) ∧
    (∀ e ∈ data, isIP e.1 = true →
        ∃ s ∈ fetchOpenNICTierServers isIP data, s.ip = e.1) ∧
    (fetchOpenNICTierServers isIP [("not-an-ip", "h1"), ("9.9.9.9", "h2")]).map
      OpenNICServer.ip = ["9.9.9.9"] := by
  refine ⟨fun s hs => fetchOpenNICAux_valid isIP data [] s hs, ?_, ?_⟩
  · intro e he hv
    rcases fetchOpenNICAux_kept isIP data [] e he hv with h | h
    · simp at h
    · exact h
  · unfold fetchOpenNICTierServers
    rw [fetchOpenNICAux, if_neg (by simp [h1]), fetchOpenNICAux,
      if_pos ⟨h2, by simp⟩]
    rfl

theorem C9_dynamic_validation_witness :
    (fetchOpenNICTierServers isIPv4 [("not-an-ip", "h1"), ("9.9.9.9", "h2")]).map
      OpenNICServer.ip = ["9.9.9.9"] :=
  (C9_dynamic_validation isIPv4 [] (by decide) (by decide)).2.2

/-- C10: the quota counters (`maltiverseRequestCount` and the env
variant's `maltiverseApiCount`) are incremented only when the remote
request completes: a 404, a quota rejection, or a transport error leaves
them unchanged, so one window containing a failed request issues strictly
more than `ceiling` remote requests. -/
theorem C10_counter_success_only (s : MaltiverseState) (r : RemoteResult)
    (hfail : isSuccessResult r = false)
    (useApi hasKey : Bool) (quota count : Nat) :
    (getMaltiverseInfo s r).state.maltiverseRequestCount = s.maltiverseRequestCount ∧
    (queryMaltiverse useApi hasKey quota count r).2.1 = count ∧
    ((runReplies freshQuotaState overBudgetRun).filter (fun c => c.issued)).length =
      MALTIVERSE_MAX_REQUESTS + 1 := by
  refine ⟨?_, ?_, by decide⟩
  · by_cases h : s.maltiverseQuotaExceeded = true ∨
        MALTIVERSE_MAX_REQUESTS ≤ s.maltiverseRequestCount
    · rw [getMaltiverseInfo_denied s r h]
    · cases r with
      | response status hasData rep tags => simp [isSuccessResult] at hfail
      | httpError status body m =>
          unfold getMaltiverseInfo
          rw [if_neg h]
          dsimp only
          by_cases hq : (status == 403 || quotaBodyFlag body) = true
          · rw [if_pos hq]
          · rw [if_neg hq]
            by_cases h4 : (status == 404) = true
            · rw [if_pos h4]
            · rw [if_neg h4]
      | transportError m =>
          unfold getMaltiverseInfo
          rw [if_neg h]
  · unfold queryMaltiverse
    by_cases hg : (!(useApi && hasKey)) = true
    · rw [if_pos hg]
    · rw [if_neg hg]
      by_cases hq2 : quota ≤ count
      · rw [if_pos hq2]
      · rw [if_neg hq2]
        cases r with
        | response status hasData rep tags => simp [isSuccessResult] at hfail
        | httpError status body m => rfl
        | transportError m => rfl

theorem C10_counter_success_only_witness :
    (getMaltiverseInfo freshQuotaState notFoundSample).state.maltiverseRequestCount = 0 ∧
    (queryMaltiverse true true 100 0 notFoundSample).2.1 = 0 ∧
    ((runReplies freshQuotaState overBudgetRun).filter (fun c => c.issued)).length =
      MALTIVERSE_MAX_REQUESTS + 1 := by
  have h := C10_counter_success_only freshQuotaState notFoundSample (by decide)
    true true 100 0
  exact ⟨h.1, h.2.1, h.2.2⟩
